import Mathlib

/-! # Checkout lifecycle of the gitops provider (`gitops/checkout.go`)

A shallow embedding of `read`, `CheckoutCreate`, `CheckoutRead` and
`CheckoutDelete`.  The functions called from `checkout.go` whose bodies live
elsewhere (`getConfig`, `lockCheckout`, `unlockCheckout`, `cloneIfNotExist`,
`gitCommand`, `commit`, `push`, `os.RemoveAll`) are collaborators: every call
is recorded as an `Event` together with its arguments and its result, and the
result is supplied by an `Env` whose answers may depend on everything that
happened before the call.
-/

namespace Gitops

/-- The constant `DEFAULT_MERGING_STRATEGY`. -/
def DEFAULT_MERGING_STRATEGY : String := "--rebase"

/-- Go `strings.TrimRight(s, cutset)`: `s` without the longest trailing run of
characters that occur in `cutset`. -/
def TrimRight (s cutset : String) : String :=
  ⟨(s.data.reverse.dropWhile (fun ch => cutset.data.contains ch)).reverse⟩

/-- The value returned by `getConfig(m)`.  `checkout.go` reads only `Path`;
the struct is declared outside `checkout.go`, `Repo` and `Branch` are the
other two fields the clone needs. -/
structure Config where
  Path : String
  Repo : String
  Branch : String
deriving DecidableEq, Repr

/-- The `*schema.ResourceData` of a checkout: the id (`d.Id()`) and the seven
attributes of `checkoutResource`. -/
structure ResourceData where
  id : String
  path : String
  repo : String
  branch : String
  head : String
  retry_count : Int
  retry_interval : Int
  merging_strategy : String
deriving DecidableEq, Repr

/-- The call `d.SetId(v)`. -/
def ResourceData.SetId (d : ResourceData) (v : String) : ResourceData :=
  { d with id := v }

/-- The call `d.Set(key, value)` with a string value, as `read` uses it (the
returned error is dropped there); a key that is not one of the string
attributes leaves the data as it is. -/
def ResourceData.Set (d : ResourceData) (key value : String) : ResourceData :=
  if key = "path" then { d with path := value }
  else if key = "repo" then { d with repo := value }
  else if key = "branch" then { d with branch := value }
  else if key = "head" then { d with head := value }
  else if key = "merging_strategy" then { d with merging_strategy := value }
  else d

deriving instance DecidableEq for Except

/-- One step inside a `push` call: a git command with its result, or the wait
between two attempts. -/
inductive PushStep where
  | gitCommand (dir : String) (args : List String) (res : Except String String)
  | sleep (seconds : Int)
deriving DecidableEq, Repr

/-- The effects of the lifecycle functions, in the order they happen, each
with the arguments of the call and what the call returned. -/
inductive Event where
  | lockCheckout (path : String)
  | unlockCheckout (path : String)
  | cloneIfNotExist (c : Config) (err : Option String)
  | gitCommand (dir : String) (args : List String) (res : Except String String)
  | commit (dir : String) (message : String) (file : String) (err : Option String)
  | push (dir : String) (count retry_count retry_interval : Int)
      (merging_strategy : String) (steps : List PushStep) (err : Option String)
  | removeAll (path : String) (err : Option String)
  | setId (v : String)
  | set (key value : String)
deriving DecidableEq, Repr

/-- The `error` values the lifecycle functions return, by the place that
produced them. -/
inductive Error where
  /-- The `errors.New` of the identity check: configured path, then stored id. -/
  | stateMismatch (path id : String)
  /-- An error returned by `cloneIfNotExist`. -/
  | clone (msg : String)
  /-- An error returned by `gitCommand`. -/
  | git (msg : String)
  /-- The `fmt.Errorf` of the repo comparison: expected, then observed. -/
  | expectedRepo (expected was : String)
  /-- The `fmt.Errorf` of the branch comparison. -/
  | expectedBranch (expected was : String)
  /-- The `fmt.Errorf` of the head comparison. -/
  | expectedHead (expected was : String)
  /-- An error returned by `commit`, wrapped by `errwrap.Wrapf`. -/
  | commit (msg : String)
  /-- An error returned by `push`. -/
  | push (msg : String)
  /-- An error returned by `os.RemoveAll`. -/
  | removeAll (msg : String)
deriving DecidableEq, Repr

/-- The collaborators.  Each answer is a function of the events so far and of
the arguments of the call. -/
structure Env where
  cloneIfNotExist : List Event → Config → Option String
  gitCommand : List Event → String → List String → Except String String
  commit : List Event → String → String → String → Option String
  push : List Event → String → Int → Int → Int → String → List PushStep × Option String
  removeAll : List Event → String → Option String

/-- What one call leaves behind: the events of the call in order, the resource
data after it and the returned error (`none` for `nil`). -/
structure Outcome where
  events : List Event
  data : ResourceData
  err : Option Error
deriving DecidableEq, Repr

/-- The function `read`; `h` holds the events before the call. -/
def read (env : Env) (h : List Event) (d : ResourceData) : Outcome :=
  let checkout_dir := d.id
  let merging_strategy :=
    if d.merging_strategy = "" then DEFAULT_MERGING_STRATEGY else d.merging_strategy
  let a1 := ["config", "--get", "remote.origin.url"]
  match env.gitCommand h checkout_dir a1 with
  | .error e => ⟨[Event.gitCommand checkout_dir a1 (.error e)], d, some (.git e)⟩
  | .ok out1 =>
    let ev1 := [Event.gitCommand checkout_dir a1 (.ok out1)]
    let repo := TrimRight out1 "\n"
    let a2 := ["rev-parse", "--abbrev-ref", "HEAD"]
    match env.gitCommand (h ++ ev1) checkout_dir a2 with
    | .error e => ⟨ev1 ++ [Event.gitCommand checkout_dir a2 (.error e)], d, some (.git e)⟩
    | .ok out2 =>
      let ev2 := ev1 ++ [Event.gitCommand checkout_dir a2 (.ok out2)]
      let branch := TrimRight out2 "\n"
      let a3 := ["pull", merging_strategy, "origin"]
      match env.gitCommand (h ++ ev2) checkout_dir a3 with
      | .error e => ⟨ev2 ++ [Event.gitCommand checkout_dir a3 (.error e)], d, some (.git e)⟩
      | .ok out3 =>
        let ev3 := ev2 ++ [Event.gitCommand checkout_dir a3 (.ok out3)]
        let a4 := ["rev-parse", "HEAD"]
        match env.gitCommand (h ++ ev3) checkout_dir a4 with
        | .error e => ⟨ev3 ++ [Event.gitCommand checkout_dir a4 (.error e)], d, some (.git e)⟩
        | .ok out4 =>
          let ev4 := ev3 ++ [Event.gitCommand checkout_dir a4 (.ok out4)]
          let head := TrimRight out4 "\n"
          let d1 := d.Set "path" checkout_dir
          let d2 := d1.Set "repo" repo
          let d3 := d2.Set "branch" branch
          let d4 := d3.Set "head" head
          ⟨ev4 ++ [Event.set "path" checkout_dir, Event.set "repo" repo,
              Event.set "branch" branch, Event.set "head" head], d4, none⟩

/-- The function `CheckoutCreate` (also registered as `Update`); the deferred
`unlockCheckout` is the last event of every path through it. -/
def CheckoutCreate (env : Env) (h : List Event) (d : ResourceData) (c : Config) : Outcome :=
  let unlock := [Event.unlockCheckout c.Path]
  let ev0 := [Event.lockCheckout c.Path]
  match env.cloneIfNotExist (h ++ ev0) c with
  | some e => ⟨ev0 ++ [Event.cloneIfNotExist c (some e)] ++ unlock, d, some (.clone e)⟩
  | none =>
    let ev1 := ev0 ++ [Event.cloneIfNotExist c none]
    let d1 := d.SetId c.Path
    let ev2 := ev1 ++ [Event.setId c.Path]
    let o := read env (h ++ ev2) d1
    ⟨ev2 ++ o.events ++ unlock, o.data, o.err⟩

/-- The function `CheckoutRead`. -/
def CheckoutRead (env : Env) (h : List Event) (d : ResourceData) (c : Config) : Outcome :=
  let checkout_id := d.id
  if c.Path ≠ checkout_id then
    ⟨[], d, some (.stateMismatch c.Path checkout_id)⟩
  else
    let unlock := [Event.unlockCheckout c.Path]
    let ev0 := [Event.lockCheckout c.Path]
    match env.cloneIfNotExist (h ++ ev0) c with
    | some e => ⟨ev0 ++ [Event.cloneIfNotExist c (some e)] ++ unlock, d, some (.clone e)⟩
    | none =>
      let ev1 := ev0 ++ [Event.cloneIfNotExist c none]
      let o := read env (h ++ ev1) d
      ⟨ev1 ++ o.events ++ unlock, o.data, o.err⟩

/-- The function `CheckoutDelete`. -/
def CheckoutDelete (env : Env) (h : List Event) (d : ResourceData) (c : Config) : Outcome :=
  let checkout_id := d.id
  let retry_count := d.retry_count
  let retry_interval := d.retry_interval
  let merging_strategy := d.merging_strategy
  let expected_repo := d.repo
  let expected_branch := d.branch
  let expected_head := d.head
  if c.Path ≠ checkout_id then
    ⟨[], d, some (.stateMismatch c.Path checkout_id)⟩
  else
    let unlock := [Event.unlockCheckout c.Path]
    let ev0 := [Event.lockCheckout c.Path]
    match env.cloneIfNotExist (h ++ ev0) c with
    | some e => ⟨ev0 ++ [Event.cloneIfNotExist c (some e)] ++ unlock, d, some (.clone e)⟩
    | none =>
      let ev1 := ev0 ++ [Event.cloneIfNotExist c none]
      let a1 := ["config", "--get", "remote.origin.url"]
      match env.gitCommand (h ++ ev1) c.Path a1 with
      | .error e => ⟨ev1 ++ [Event.gitCommand c.Path a1 (.error e)] ++ unlock, d, some (.git e)⟩
      | .ok out1 =>
        let ev2 := ev1 ++ [Event.gitCommand c.Path a1 (.ok out1)]
        let repo := TrimRight out1 "\n"
        let a2 := ["rev-parse", "--abbrev-ref", "HEAD"]
        match env.gitCommand (h ++ ev2) c.Path a2 with
        | .error e => ⟨ev2 ++ [Event.gitCommand c.Path a2 (.error e)] ++ unlock, d, some (.git e)⟩
        | .ok out2 =>
          let ev3 := ev2 ++ [Event.gitCommand c.Path a2 (.ok out2)]
          let branch := TrimRight out2 "\n"
          let a3 := ["pull", merging_strategy, "origin"]
          match env.gitCommand (h ++ ev3) c.Path a3 with
          | .error e =>
            ⟨ev3 ++ [Event.gitCommand c.Path a3 (.error e)] ++ unlock, d, some (.git e)⟩
          | .ok out3 =>
            let ev4 := ev3 ++ [Event.gitCommand c.Path a3 (.ok out3)]
            let a4 := ["rev-parse", "HEAD"]
            match env.gitCommand (h ++ ev4) c.Path a4 with
            | .error e =>
              ⟨ev4 ++ [Event.gitCommand c.Path a4 (.error e)] ++ unlock, d, some (.git e)⟩
            | .ok out4 =>
              let ev5 := ev4 ++ [Event.gitCommand c.Path a4 (.ok out4)]
              let head := TrimRight out4 "\n"
              if expected_repo ≠ repo then
                ⟨ev5 ++ unlock, d, some (.expectedRepo expected_repo repo)⟩
              else if expected_branch ≠ branch then
                ⟨ev5 ++ unlock, d, some (.expectedBranch expected_branch branch)⟩
              else if expected_head ≠ head then
                ⟨ev5 ++ unlock, d, some (.expectedHead expected_head head)⟩
              else
                let msg := "Removed by Terraform"
                match env.commit (h ++ ev5) c.Path msg "" with
                | some e => ⟨ev5 ++ [Event.commit c.Path msg "" (some e)] ++ unlock, d,
                    some (.commit e)⟩
                | none =>
                  let ev6 := ev5 ++ [Event.commit c.Path msg "" none]
                  match env.push (h ++ ev6) c.Path 0 retry_count retry_interval
                      merging_strategy with
                  | (steps, some e) =>
                    ⟨ev6 ++ [Event.push c.Path 0 retry_count retry_interval merging_strategy
                      steps (some e)] ++ unlock, d, some (.push e)⟩
                  | (steps, none) =>
                    let ev7 := ev6 ++ [Event.push c.Path 0 retry_count retry_interval
                      merging_strategy steps none]
                    match env.removeAll (h ++ ev7) c.Path with
                    | some e => ⟨ev7 ++ [Event.removeAll c.Path (some e)] ++ unlock, d,
                        some (.removeAll e)⟩
                    | none => ⟨ev7 ++ [Event.removeAll c.Path none] ++ unlock, d, none⟩

/-! ## Vocabulary of the statements -/

/-- The directory or path a call is made for; `none` for the in-memory
`SetId` and `Set`. -/
def Event.target : Event → Option String
  | .lockCheckout p => some p
  | .unlockCheckout p => some p
  | .cloneIfNotExist c _ => some c.Path
  | .gitCommand dir _ _ => some dir
  | .commit dir _ _ _ => some dir
  | .push dir _ _ _ _ _ _ => some dir
  | .removeAll p _ => some p
  | .setId _ => none
  | .set _ _ => none

/-- Whether the event is an acquisition of a path lock. -/
def Event.isLock : Event → Bool
  | .lockCheckout _ => true
  | _ => false

/-- Whether the event is a release of a path lock. -/
def Event.isUnlock : Event → Bool
  | .unlockCheckout _ => true
  | _ => false

/-- The events of a call respect the lock of `path`: either nothing happened,
or the lock of `path` is taken first and released last, and in between no lock
is taken or released and every call is made for `path`. -/
def LockScoped (path : String) (evs : List Event) : Prop :=
  evs = [] ∨
    (evs.head? = some (Event.lockCheckout path) ∧
      evs.getLast? = some (Event.unlockCheckout path) ∧
      ∀ e ∈ evs.tail.dropLast, e.isLock = false ∧ e.isUnlock = false ∧
        (e.target = none ∨ e.target = some path))

/-- The directory and the arguments of a git command; `none` for any other
event. -/
def Event.gitCall : Event → Option (String × List String)
  | .gitCommand dir args _ => some (dir, args)
  | _ => none

/-- The git commands among the events, in order, without their results. -/
def gitCalls (evs : List Event) : List (String × List String) :=
  evs.filterMap Event.gitCall

/-- The result of a git command; `none` for any other event. -/
def Event.gitResult : Event → Option (Except String String)
  | .gitCommand _ _ res => some res
  | _ => none

/-- The results of the git commands among the events, in order. -/
def gitResults (evs : List Event) : List (Except String String) :=
  evs.filterMap Event.gitResult

/-- The four commands of a reconciliation as the specification lists them,
the pull with the configured strategy or `--rebase` when none is configured. -/
def reconcileCommands (d : ResourceData) : List (List String) :=
  [["config", "--get", "remote.origin.url"],
    ["rev-parse", "--abbrev-ref", "HEAD"],
    ["pull", if d.merging_strategy = "" then "--rebase" else d.merging_strategy, "origin"],
    ["rev-parse", "HEAD"]]

/-- The result of a `cloneIfNotExist` call; `none` for any other event. -/
def Event.cloneResult : Event → Option (Option String)
  | .cloneIfNotExist _ err => some err
  | _ => none

/-- The results of the `cloneIfNotExist` calls among the events, in order. -/
def cloneResults (evs : List Event) : List (Option String) :=
  evs.filterMap Event.cloneResult

/-- The outcome of `read` on `d` as a function of the answers git gave, in the
order of the calls: the answers determine everything `read` does. -/
def readOutcome (d : ResourceData) : List (Except String String) → Outcome
  | [.error e] =>
    ⟨[Event.gitCommand d.id ["config", "--get", "remote.origin.url"] (.error e)], d,
      some (.git e)⟩
  | [.ok o1, .error e] =>
    ⟨[Event.gitCommand d.id ["config", "--get", "remote.origin.url"] (.ok o1),
      Event.gitCommand d.id ["rev-parse", "--abbrev-ref", "HEAD"] (.error e)], d,
      some (.git e)⟩
  | [.ok o1, .ok o2, .error e] =>
    ⟨[Event.gitCommand d.id ["config", "--get", "remote.origin.url"] (.ok o1),
      Event.gitCommand d.id ["rev-parse", "--abbrev-ref", "HEAD"] (.ok o2),
      Event.gitCommand d.id
        ["pull", if d.merging_strategy = "" then "--rebase" else d.merging_strategy, "origin"]
        (.error e)], d, some (.git e)⟩
  | [.ok o1, .ok o2, .ok o3, .error e] =>
    ⟨[Event.gitCommand d.id ["config", "--get", "remote.origin.url"] (.ok o1),
      Event.gitCommand d.id ["rev-parse", "--abbrev-ref", "HEAD"] (.ok o2),
      Event.gitCommand d.id
        ["pull", if d.merging_strategy = "" then "--rebase" else d.merging_strategy, "origin"]
        (.ok o3),
      Event.gitCommand d.id ["rev-parse", "HEAD"] (.error e)], d, some (.git e)⟩
  | [.ok o1, .ok o2, .ok o3, .ok o4] =>
    ⟨[Event.gitCommand d.id ["config", "--get", "remote.origin.url"] (.ok o1),
      Event.gitCommand d.id ["rev-parse", "--abbrev-ref", "HEAD"] (.ok o2),
      Event.gitCommand d.id
        ["pull", if d.merging_strategy = "" then "--rebase" else d.merging_strategy, "origin"]
        (.ok o3),
      Event.gitCommand d.id ["rev-parse", "HEAD"] (.ok o4),
      Event.set "path" d.id, Event.set "repo" (TrimRight o1 "\n"),
      Event.set "branch" (TrimRight o2 "\n"), Event.set "head" (TrimRight o4 "\n")],
      { d with
        path := d.id
        repo := TrimRight o1 "\n"
        branch := TrimRight o2 "\n"
        head := TrimRight o4 "\n" },
      none⟩
  | _ => ⟨[], d, none⟩

/-! ## The retrying push -/

/-- A step of a `push` call without its result. -/
inductive PushCall where
  | git (dir : String) (args : List String)
  | sleep (seconds : Int)
deriving DecidableEq, Repr

/-- The call a push step records. -/
def PushStep.call : PushStep → PushCall
  | .gitCommand dir args _ => .git dir args
  | .sleep seconds => .sleep seconds

/-- Whether the step is an attempt to push (a `git push`). -/
def PushStep.isPushAttempt : PushStep → Bool
  | .gitCommand _ ("push" :: _) _ => true
  | _ => false

/-- Modelled from the spec: the loop of `push`, whose body is defined outside
`checkout.go`.  With `remaining` attempts left: push to `origin`; when the push
is accepted the call succeeds; when it is rejected and attempts remain, sleep
`retry_interval` seconds, pull with the merge strategy (an error of the pull
is returned as it is) and try again; when none remains the call fails with
`PushRetriesExhaustedError`.  `git` answers from the steps made so far. -/
def pushAttempts (git : List PushStep → String → List String → Except String String)
    (dir : String) (retry_interval : Int) (merging_strategy : String) :
    Nat → List PushStep → List PushStep × Option String
  | 0, steps => (steps, some "PushRetriesExhaustedError")
  | n + 1, steps =>
    match git steps dir ["push", "origin"] with
    | .ok out => (steps ++ [PushStep.gitCommand dir ["push", "origin"] (.ok out)], none)
    | .error e =>
      let steps1 := steps ++ [PushStep.gitCommand dir ["push", "origin"] (.error e)]
      if n = 0 then (steps1, some "PushRetriesExhaustedError")
      else
        let steps2 := steps1 ++ [PushStep.sleep retry_interval]
        match git steps2 dir ["pull", merging_strategy, "origin"] with
        | .error e2 =>
          (steps2 ++ [PushStep.gitCommand dir ["pull", merging_strategy, "origin"] (.error e2)],
            some e2)
        | .ok out2 =>
          pushAttempts git dir retry_interval merging_strategy n
            (steps2 ++ [PushStep.gitCommand dir ["pull", merging_strategy, "origin"] (.ok out2)])

/-- Modelled from the spec: `push(dir, count, retry_count, retry_interval,
merging_strategy)`, defined outside `checkout.go`: attempts are counted from
`count` and `retry_count` bounds them, so `retry_count - count` attempts are
available. -/
def push (git : List PushStep → String → List String → Except String String)
    (dir : String) (count retry_count retry_interval : Int) (merging_strategy : String) :
    List PushStep × Option String :=
  pushAttempts git dir retry_interval merging_strategy (retry_count - count).toNat []

/-! ## Concrete inputs -/

/-- A configuration for a checkout at `/srv/checkout`. -/
def exampleConfig : Config :=
  { Path := "/srv/checkout", Repo := "git@example.com:ops/state.git", Branch := "master" }

/-- The state of that checkout as a successful read records it. -/
def exampleData : ResourceData :=
  { id := "/srv/checkout", path := "/srv/checkout", repo := "git@example.com:ops/state.git",
    branch := "master", head := "4f2a9c1", retry_count := 3, retry_interval := 5,
    merging_strategy := "--rebase" }

/-- A resource that was never created: no id, no observed attribute. -/
def freshData : ResourceData :=
  { id := "", path := "", repo := "", branch := "", head := "", retry_count := 10,
    retry_interval := 5, merging_strategy := "--rebase" }

/-- The state of the checkout with an empty `merging_strategy`. -/
def emptyStrategyData : ResourceData :=
  { exampleData with merging_strategy := "" }

/-- A git that answers the three observation commands of the example checkout
and accepts everything else silently. -/
def exampleGit (args : List String) : Except String String :=
  if args = ["config", "--get", "remote.origin.url"] then
    .ok "git@example.com:ops/state.git\n"
  else if args = ["rev-parse", "--abbrev-ref", "HEAD"] then .ok "master\n"
  else if args = ["rev-parse", "HEAD"] then .ok "4f2a9c1\n"
  else .ok ""

/-- Collaborators that all succeed. -/
def exampleEnv : Env :=
  { cloneIfNotExist := fun _ _ => none
    gitCommand := fun _ _ args => exampleGit args
    commit := fun _ _ _ _ => none
    push := fun _ _ _ _ _ _ => ([], none)
    removeAll := fun _ _ => none }

/-- Collaborators whose clone succeeds and whose git fails on every command. -/
def failingGitEnv : Env :=
  { exampleEnv with gitCommand := fun _ _ _ => .error "fatal: unable to access remote" }

/-- A git inside `push` whose remote rejects every push and serves every
other command. -/
def rejectingGit (_ : List Event) (_ : List PushStep) (_ : String) (args : List String) :
    Except String String :=
  if args = ["push", "origin"] then .error "rejected: fetch first" else .ok ""

/-- Collaborators that all succeed, except that `push` is the retrying push
over `rejectingGit`. -/
def rejectingEnv : Env :=
  { exampleEnv with
    push := fun hist dir count rc ri ms => push (rejectingGit hist) dir count rc ri ms }

/-- Whether a successful pull is among the events. -/
def pulledBefore (hist : List Event) : Bool :=
  hist.any fun e =>
    match e with
    | .gitCommand _ ("pull" :: _) (.ok _) => true
    | _ => false

/-- A git whose remote is one commit ahead of the working copy: `rev-parse
HEAD` answers the old head until a pull has happened, the new head after. -/
def movingHeadGit (hist : List Event) (_ : String) (args : List String) :
    Except String String :=
  if args = ["rev-parse", "HEAD"] then
    if pulledBefore hist then .ok "bbbbbbb\n" else .ok "4f2a9c1\n"
  else exampleGit args

/-- Collaborators that all succeed, over `movingHeadGit`. -/
def movingHeadEnv : Env :=
  { exampleEnv with gitCommand := movingHeadGit }

/-! ## Lemmas -/

theorem read_err_git (env : Env) (h : List Event) (d : ResourceData) (e : Error)
    (he : (read env h d).err = some e) : ∃ m, e = Error.git m ∧ (read env h d).data = d := by
  generalize ho : read env h d = o at he ⊢
  unfold read at ho
  simp only [] at ho
  repeat' split at ho
  all_goals subst ho
  all_goals simp at he
  all_goals subst he
  all_goals simp

theorem read_data_id (env : Env) (h : List Event) (d : ResourceData) :
    (read env h d).data.id = d.id ∧
      (read env h d).data.merging_strategy = d.merging_strategy ∧
      (read env h d).data.retry_count = d.retry_count ∧
      (read env h d).data.retry_interval = d.retry_interval := by
  generalize ho : read env h d = o
  unfold read at ho
  simp only [] at ho
  repeat' split at ho
  all_goals subst ho
  all_goals simp [ResourceData.Set]

theorem read_events_target (env : Env) (h : List Event) (d : ResourceData) :
    ∀ e ∈ (read env h d).events, e.isLock = false ∧ e.isUnlock = false ∧
      (e.target = none ∨ e.target = some d.id) := by
  generalize ho : read env h d = o
  unfold read at ho
  simp only [] at ho
  repeat' split at ho
  all_goals subst ho
  all_goals simp [Event.isLock, Event.isUnlock, Event.target]

theorem read_success (env : Env) (h : List Event) (d : ResourceData)
    (hs : (read env h d).err = none) :
    ∃ o1 o2 o3 o4,
      (read env h d).events =
        [Event.gitCommand d.id ["config", "--get", "remote.origin.url"] (.ok o1),
          Event.gitCommand d.id ["rev-parse", "--abbrev-ref", "HEAD"] (.ok o2),
          Event.gitCommand d.id
            ["pull", if d.merging_strategy = "" then "--rebase" else d.merging_strategy,
              "origin"] (.ok o3),
          Event.gitCommand d.id ["rev-parse", "HEAD"] (.ok o4),
          Event.set "path" d.id, Event.set "repo" (TrimRight o1 "\n"),
          Event.set "branch" (TrimRight o2 "\n"), Event.set "head" (TrimRight o4 "\n")]
      ∧ (read env h d).data =
        { d with
          path := d.id
          repo := TrimRight o1 "\n"
          branch := TrimRight o2 "\n"
          head := TrimRight o4 "\n" } := by
  generalize ho : read env h d = o at hs ⊢
  unfold read at ho
  simp only [] at ho
  repeat' split at ho
  all_goals subst ho
  all_goals simp at hs
  all_goals simp [*, DEFAULT_MERGING_STRATEGY, ResourceData.Set]
  all_goals exact ⟨_, _, _, _, ⟨rfl, rfl, rfl, rfl, rfl, rfl, rfl⟩, rfl, rfl, rfl⟩

theorem read_success_data (env : Env) (h : List Event) (d : ResourceData)
    (o1 o2 o3 o4 : String) (hs : (read env h d).err = none)
    (hg : gitResults (read env h d).events = [.ok o1, .ok o2, .ok o3, .ok o4]) :
    (read env h d).data.id = d.id ∧ (read env h d).data.repo = TrimRight o1 "\n"
      ∧ (read env h d).data.branch = TrimRight o2 "\n"
      ∧ (read env h d).data.head = TrimRight o4 "\n"
      ∧ (read env h d).data.merging_strategy = d.merging_strategy := by
  obtain ⟨q1, q2, q3, q4, hev, hd⟩ := read_success env h d hs
  rw [hev] at hg
  simp [gitResults, Event.gitResult] at hg
  obtain ⟨rfl, rfl, rfl, rfl⟩ := hg
  rw [hd]
  simp

theorem read_eq_readOutcome (env : Env) (h : List Event) (d : ResourceData) :
    read env h d = readOutcome d (gitResults (read env h d).events) := by
  generalize ho : read env h d = o
  unfold read at ho
  simp only [] at ho
  repeat' split at ho
  all_goals subst ho
  all_goals simp [*, readOutcome, gitResults, Event.gitResult, DEFAULT_MERGING_STRATEGY,
    ResourceData.Set]

theorem readOutcome_idem (env : Env) (h : List Event) (d : ResourceData) :
    readOutcome (read env h d).data (gitResults (read env h d).events) = read env h d := by
  generalize ho : read env h d = o
  unfold read at ho
  simp only [] at ho
  repeat' split at ho
  all_goals subst ho
  all_goals simp [*, readOutcome, gitResults, Event.gitResult, DEFAULT_MERGING_STRATEGY,
    ResourceData.Set]

theorem read_repeat (env : Env) (h k : List Event) (d : ResourceData)
    (hres : gitResults (read env k (read env h d).data).events =
      gitResults (read env h d).events) :
    read env k (read env h d).data = read env h d := by
  rw [read_eq_readOutcome env k (read env h d).data, hres]
  exact readOutcome_idem env h d

theorem CheckoutRead_mismatch (env : Env) (h : List Event) (d : ResourceData) (c : Config)
    (hid : c.Path ≠ d.id) :
    CheckoutRead env h d c = ⟨[], d, some (.stateMismatch c.Path d.id)⟩ := by
  simp [CheckoutRead, hid]

theorem CheckoutRead_clone_err (env : Env) (h : List Event) (d : ResourceData) (c : Config)
    (e : String) (hid : c.Path = d.id)
    (hc : env.cloneIfNotExist (h ++ [Event.lockCheckout c.Path]) c = some e) :
    CheckoutRead env h d c = ⟨[Event.lockCheckout c.Path, Event.cloneIfNotExist c (some e),
      Event.unlockCheckout c.Path], d, some (.clone e)⟩ := by
  simp [CheckoutRead, hid.symm, hc]

theorem CheckoutRead_clone_ok (env : Env) (h : List Event) (d : ResourceData) (c : Config)
    (hid : c.Path = d.id)
    (hc : env.cloneIfNotExist (h ++ [Event.lockCheckout c.Path]) c = none) :
    CheckoutRead env h d c =
      ⟨[Event.lockCheckout c.Path, Event.cloneIfNotExist c none] ++
        (read env (h ++ [Event.lockCheckout c.Path, Event.cloneIfNotExist c none]) d).events ++
        [Event.unlockCheckout c.Path],
      (read env (h ++ [Event.lockCheckout c.Path, Event.cloneIfNotExist c none]) d).data,
      (read env (h ++ [Event.lockCheckout c.Path, Event.cloneIfNotExist c none]) d).err⟩ := by
  simp [CheckoutRead, hid.symm, hc]

theorem lockScoped_bracket (path : String) (mid : List Event)
    (hmid : ∀ e ∈ mid, e.isLock = false ∧ e.isUnlock = false ∧
      (e.target = none ∨ e.target = some path)) :
    LockScoped path (Event.lockCheckout path :: (mid ++ [Event.unlockCheckout path]))
    ∧ (Event.lockCheckout path :: (mid ++ [Event.unlockCheckout path])).countP Event.isLock = 1
    ∧ (Event.lockCheckout path :: (mid ++ [Event.unlockCheckout path])).countP
        Event.isUnlock = 1 := by
  have h1 : mid.countP Event.isLock = 0 :=
    List.countP_eq_zero.mpr (fun e he => by simp [(hmid e he).1])
  have h2 : mid.countP Event.isUnlock = 0 :=
    List.countP_eq_zero.mpr (fun e he => by simp [(hmid e he).2.1])
  refine ⟨Or.inr ⟨rfl, ?_, ?_⟩, ?_, ?_⟩
  · rw [← List.cons_append, List.getLast?_append]
    simp
  · rw [List.tail_cons, List.dropLast_concat]
    exact hmid
  · simp [List.countP_cons, List.countP_append, h1, Event.isLock]
  · simp [List.countP_cons, List.countP_append, h2, Event.isUnlock]

theorem intercalate_replicate_succ (sep a : List PushCall) (n : Nat) :
    List.intercalate sep (List.replicate (n + 2) a) =
      a ++ sep ++ List.intercalate sep (List.replicate (n + 1) a) := by
  simp [List.intercalate, List.replicate_succ, List.intersperse]

theorem pushAttempts_exhausted
    (git : List PushStep → String → List String → Except String String)
    (dir : String) (ri : Int) (ms : String)
    (hrej : ∀ steps, ∃ e, git steps dir ["push", "origin"] = .error e)
    (hpull : ∀ steps, ∃ out, git steps dir ["pull", ms, "origin"] = .ok out) :
    ∀ n steps, ∃ new,
      pushAttempts git dir ri ms n steps = (steps ++ new, some "PushRetriesExhaustedError")
      ∧ new.countP PushStep.isPushAttempt = n
      ∧ new.map PushStep.call =
        List.intercalate [PushCall.sleep ri, PushCall.git dir ["pull", ms, "origin"]]
          (List.replicate n [PushCall.git dir ["push", "origin"]]) := by
  intro n
  induction n with
  | zero =>
    intro steps
    exact ⟨[], by simp [pushAttempts], by simp, by simp [List.intercalate]⟩
  | succ n ih =>
    intro steps
    obtain ⟨e, he⟩ := hrej steps
    cases n with
    | zero =>
      refine ⟨[PushStep.gitCommand dir ["push", "origin"] (.error e)], ?_, ?_, ?_⟩
      · simp [pushAttempts, he]
      · simp [PushStep.isPushAttempt]
      · simp [List.intercalate, PushStep.call]
    | succ m =>
      obtain ⟨out, hout⟩ := hpull (steps ++ [PushStep.gitCommand dir ["push", "origin"] (.error e)]
        ++ [PushStep.sleep ri])
      obtain ⟨new, h1, h2, h3⟩ := ih (steps ++ [PushStep.gitCommand dir ["push", "origin"] (.error e)]
        ++ [PushStep.sleep ri] ++ [PushStep.gitCommand dir ["pull", ms, "origin"] (.ok out)])
      refine ⟨[PushStep.gitCommand dir ["push", "origin"] (.error e), PushStep.sleep ri,
        PushStep.gitCommand dir ["pull", ms, "origin"] (.ok out)] ++ new, ?_, ?_, ?_⟩
      · rw [pushAttempts]
        simp only [he, hout]
        simp only [Nat.add_one_ne_zero, if_false]
        rw [h1]
        simp
      · simp [List.countP_cons, PushStep.isPushAttempt, h2]
      · rw [intercalate_replicate_succ, List.map_append, h3]
        simp [PushStep.call]

theorem push_exhausted
    (git : List PushStep → String → List String → Except String String)
    (dir : String) (rc ri : Int) (ms : String)
    (hrej : ∀ steps, ∃ e, git steps dir ["push", "origin"] = .error e)
    (hpull : ∀ steps, ∃ out, git steps dir ["pull", ms, "origin"] = .ok out)
    (steps : List PushStep) (err : Option String)
    (hp : push git dir 0 rc ri ms = (steps, err)) :
    err = some "PushRetriesExhaustedError"
      ∧ steps.countP PushStep.isPushAttempt = rc.toNat
      ∧ steps.map PushStep.call =
        List.intercalate [PushCall.sleep ri, PushCall.git dir ["pull", ms, "origin"]]
          (List.replicate rc.toNat [PushCall.git dir ["push", "origin"]]) := by
  obtain ⟨new, h1, h2, h3⟩ := pushAttempts_exhausted git dir ri ms hrej hpull rc.toNat []
  unfold push at hp
  rw [sub_zero, h1] at hp
  simp only [List.nil_append, Prod.mk.injEq] at hp
  obtain ⟨rfl, rfl⟩ := hp
  exact ⟨rfl, h2, h3⟩

/-! ## The lifecycle properties -/

/-- Claim C1: in every execution of `CheckoutDelete`, whatever the collaborators
answer, a removal of the directory happens only for the configured path,
directly after a `push` that returned no error, and is followed only by the
release of the lock; and when `CheckoutDelete` returns an error that does not
come from the removal itself (identity check, clone, git command, sanity check,
commit or push), no removal is among its events. -/
theorem CheckoutDelete_removeAll_only_after_push (env : Env) (h : List Event)
    (d : ResourceData) (c : Config) :
    (∀ p r, Event.removeAll p r ∈ (CheckoutDelete env h d c).events →
      ∃ pre steps, (CheckoutDelete env h d c).events =
        pre ++ [Event.push c.Path 0 d.retry_count d.retry_interval d.merging_strategy steps none,
          Event.removeAll p r, Event.unlockCheckout c.Path]
        ∧ p = c.Path ∧ ∀ q s, Event.removeAll q s ∉ pre)
    ∧ (∀ e, (CheckoutDelete env h d c).err = some e → (∀ m, e ≠ Error.removeAll m) →
        ∀ p r, Event.removeAll p r ∉ (CheckoutDelete env h d c).events) := by
  generalize ho : CheckoutDelete env h d c = o
  unfold CheckoutDelete at ho
  simp only [] at ho
  repeat' split at ho
  all_goals subst ho
  all_goals simp
  all_goals exact ⟨[_, _, _, _, _, _, _], ⟨_, rfl⟩, by simp⟩

/-- Claim C1 on the example checkout: the directory is removed, and the removal
follows the successful push. -/
theorem CheckoutDelete_removeAll_only_after_push_witness :
    Event.removeAll "/srv/checkout" none ∈
        (CheckoutDelete exampleEnv [] exampleData exampleConfig).events
      ∧ ∃ pre steps, (CheckoutDelete exampleEnv [] exampleData exampleConfig).events =
        pre ++ [Event.push exampleConfig.Path 0 exampleData.retry_count
            exampleData.retry_interval exampleData.merging_strategy steps none,
          Event.removeAll "/srv/checkout" none, Event.unlockCheckout exampleConfig.Path]
        ∧ "/srv/checkout" = exampleConfig.Path ∧ ∀ q s, Event.removeAll q s ∉ pre :=
  ⟨by decide,
    (CheckoutDelete_removeAll_only_after_push exampleEnv [] exampleData exampleConfig).1
      "/srv/checkout" none (by decide)⟩

/-- Claim C2: when `CheckoutDelete` passes the identity check and its clone and
four observation commands succeed with outputs `o1`, `o2`, `o3`, `o4`: if the
recorded repo, branch or head differs from the observed one (output without
trailing newlines), the call returns the error of the first failing comparison
and its only further event is the release of the lock (no commit, no push, no
removal); if all three are equal, the next event is the tombstone commit. -/
theorem CheckoutDelete_sanity_check (env : Env) (h : List Event) (d : ResourceData)
    (c : Config) (o1 o2 o3 o4 : String)
    (hobs : (CheckoutDelete env h d c).events.take 6 =
      [Event.lockCheckout c.Path, Event.cloneIfNotExist c none,
        Event.gitCommand c.Path ["config", "--get", "remote.origin.url"] (.ok o1),
        Event.gitCommand c.Path ["rev-parse", "--abbrev-ref", "HEAD"] (.ok o2),
        Event.gitCommand c.Path ["pull", d.merging_strategy, "origin"] (.ok o3),
        Event.gitCommand c.Path ["rev-parse", "HEAD"] (.ok o4)]) :
    ((d.repo ≠ TrimRight o1 "\n" ∨ d.branch ≠ TrimRight o2 "\n" ∨ d.head ≠ TrimRight o4 "\n") →
      (CheckoutDelete env h d c).events =
        [Event.lockCheckout c.Path, Event.cloneIfNotExist c none,
          Event.gitCommand c.Path ["config", "--get", "remote.origin.url"] (.ok o1),
          Event.gitCommand c.Path ["rev-parse", "--abbrev-ref", "HEAD"] (.ok o2),
          Event.gitCommand c.Path ["pull", d.merging_strategy, "origin"] (.ok o3),
          Event.gitCommand c.Path ["rev-parse", "HEAD"] (.ok o4),
          Event.unlockCheckout c.Path]
      ∧ ((CheckoutDelete env h d c).err = some (.expectedRepo d.repo (TrimRight o1 "\n"))
        ∨ (CheckoutDelete env h d c).err = some (.expectedBranch d.branch (TrimRight o2 "\n"))
        ∨ (CheckoutDelete env h d c).err = some (.expectedHead d.head (TrimRight o4 "\n"))))
    ∧ ((d.repo = TrimRight o1 "\n" ∧ d.branch = TrimRight o2 "\n" ∧ d.head = TrimRight o4 "\n") →
      ∃ r, (CheckoutDelete env h d c).events.get? 6 =
        some (Event.commit c.Path "Removed by Terraform" "" r)) := by
  generalize ho : CheckoutDelete env h d c = o at hobs ⊢
  unfold CheckoutDelete at ho
  simp only [] at ho
  repeat' split at ho
  all_goals subst ho
  all_goals simp at hobs
  all_goals obtain ⟨rfl, rfl, rfl, rfl⟩ := hobs
  all_goals simp_all

/-- Claim C2 on the example checkout, whose recorded state matches what git
reports: the seventh event is the tombstone commit. -/
theorem CheckoutDelete_sanity_check_witness :
    (CheckoutDelete exampleEnv [] exampleData exampleConfig).events.take 6 =
        [Event.lockCheckout exampleConfig.Path, Event.cloneIfNotExist exampleConfig none,
          Event.gitCommand exampleConfig.Path ["config", "--get", "remote.origin.url"]
            (.ok "git@example.com:ops/state.git\n"),
          Event.gitCommand exampleConfig.Path ["rev-parse", "--abbrev-ref", "HEAD"]
            (.ok "master\n"),
          Event.gitCommand exampleConfig.Path ["pull", exampleData.merging_strategy, "origin"]
            (.ok ""),
          Event.gitCommand exampleConfig.Path ["rev-parse", "HEAD"] (.ok "4f2a9c1\n")]
      ∧ ∃ r, (CheckoutDelete exampleEnv [] exampleData exampleConfig).events.get? 6 =
        some (Event.commit exampleConfig.Path "Removed by Terraform" "" r) :=
  ⟨by decide,
    (CheckoutDelete_sanity_check exampleEnv [] exampleData exampleConfig
      "git@example.com:ops/state.git\n" "master\n" "" "4f2a9c1\n" (by decide)).2
      ⟨by decide, by decide, by decide⟩⟩

/-- Claim C3: when the stored id differs from the configured path, `CheckoutRead`
and `CheckoutDelete` both return the mismatch error with no event at all (no
lock, no clone, no git command, no removal) and the resource data unchanged;
when the id equals the configured path, neither returns a mismatch error. -/
theorem identity_mismatch_fails_immediately (env : Env) (h : List Event) (d : ResourceData)
    (c : Config) :
    (c.Path ≠ d.id →
      CheckoutRead env h d c = ⟨[], d, some (.stateMismatch c.Path d.id)⟩
      ∧ CheckoutDelete env h d c = ⟨[], d, some (.stateMismatch c.Path d.id)⟩)
    ∧ (c.Path = d.id →
      (∀ p i, (CheckoutRead env h d c).err ≠ some (.stateMismatch p i))
      ∧ (∀ p i, (CheckoutDelete env h d c).err ≠ some (.stateMismatch p i))) := by
  refine ⟨fun hne => ⟨?_, ?_⟩, fun heq => ⟨?_, ?_⟩⟩
  · simp [CheckoutRead, hne]
  · simp [CheckoutDelete, hne]
  · intro p i
    unfold CheckoutRead
    simp only [heq, ne_eq, not_true_eq_false, if_false]
    split
    · simp
    · intro hc
      obtain ⟨m, hm, -⟩ := read_err_git _ _ _ _ hc
      simp at hm
  · intro p i
    generalize ho : CheckoutDelete env h d c = o
    unfold CheckoutDelete at ho
    simp only [] at ho
    repeat' split at ho
    all_goals subst ho
    all_goals simp_all

/-- Claim C3 on a resource without id and the example configuration. -/
theorem identity_mismatch_fails_immediately_witness :
    exampleConfig.Path ≠ freshData.id
      ∧ CheckoutRead exampleEnv [] freshData exampleConfig =
        ⟨[], freshData, some (.stateMismatch exampleConfig.Path freshData.id)⟩
      ∧ CheckoutDelete exampleEnv [] freshData exampleConfig =
        ⟨[], freshData, some (.stateMismatch exampleConfig.Path freshData.id)⟩ :=
  ⟨by decide,
    (identity_mismatch_fails_immediately exampleEnv [] freshData exampleConfig).1
      (by decide)⟩

/-- Claim C4: `read` issues, in the directory of the resource id, the commands
`config --get remote.origin.url`, `rev-parse --abbrev-ref HEAD`,
`pull <strategy> origin`, `rev-parse HEAD` in that order, the strategy being
`--rebase` when `merging_strategy` is empty, each answered by git from the
events so far.  First conjunct: the issued commands are an initial segment of
that list; without error all four were issued and path, repo, branch and head
are set; with an error the last event is the failing command and the data is
unchanged.  The five further conjuncts give the whole outcome from git's
answers: when the first, second, third or fourth command fails, `read` returns
that command's error after exactly the commands up to it and leaves the data as
it was; when all four succeed, `read` returns no error and path is the id, repo,
branch and head are the first, second and fourth output without trailing
newlines, whatever they were before. -/
theorem read_reconciles (env : Env) (h : List Event) (d : ResourceData) :
    (gitCalls (read env h d).events <+: (reconcileCommands d).map (fun a => (d.id, a))
    ∧ ((read env h d).err = none →
      ∃ o1 o2 o3 o4,
        (read env h d).events =
          [Event.gitCommand d.id ["config", "--get", "remote.origin.url"] (.ok o1),
            Event.gitCommand d.id ["rev-parse", "--abbrev-ref", "HEAD"] (.ok o2),
            Event.gitCommand d.id
              ["pull", if d.merging_strategy = "" then "--rebase" else d.merging_strategy,
                "origin"] (.ok o3),
            Event.gitCommand d.id ["rev-parse", "HEAD"] (.ok o4),
            Event.set "path" d.id, Event.set "repo" (TrimRight o1 "\n"),
            Event.set "branch" (TrimRight o2 "\n"), Event.set "head" (TrimRight o4 "\n")]
        ∧ (read env h d).data =
          { d with
            path := d.id
            repo := TrimRight o1 "\n"
            branch := TrimRight o2 "\n"
            head := TrimRight o4 "\n" })
    ∧ (∀ e, (read env h d).err = some e →
      ∃ pre args msg,
        (read env h d).events = pre ++ [Event.gitCommand d.id args (.error msg)]
        ∧ e = Error.git msg
        ∧ (∀ ev ∈ pre, ∃ a out, ev = Event.gitCommand d.id a (.ok out))
        ∧ (read env h d).data = d))
    ∧ (∀ e,
      env.gitCommand h d.id ["config", "--get", "remote.origin.url"] = .error e →
      read env h d =
        ⟨[Event.gitCommand d.id ["config", "--get", "remote.origin.url"] (.error e)],
          d, some (.git e)⟩)
    ∧ (∀ o1 e,
      env.gitCommand h d.id ["config", "--get", "remote.origin.url"] = .ok o1 →
      env.gitCommand
        (h ++ [Event.gitCommand d.id ["config", "--get", "remote.origin.url"] (.ok o1)])
        d.id ["rev-parse", "--abbrev-ref", "HEAD"] = .error e →
      read env h d =
        ⟨[Event.gitCommand d.id ["config", "--get", "remote.origin.url"] (.ok o1),
          Event.gitCommand d.id ["rev-parse", "--abbrev-ref", "HEAD"] (.error e)],
          d, some (.git e)⟩)
    ∧ (∀ o1 o2 e,
      env.gitCommand h d.id ["config", "--get", "remote.origin.url"] = .ok o1 →
      env.gitCommand
        (h ++ [Event.gitCommand d.id ["config", "--get", "remote.origin.url"] (.ok o1)])
        d.id ["rev-parse", "--abbrev-ref", "HEAD"] = .ok o2 →
      env.gitCommand
        (h ++ [Event.gitCommand d.id ["config", "--get", "remote.origin.url"] (.ok o1),
          Event.gitCommand d.id ["rev-parse", "--abbrev-ref", "HEAD"] (.ok o2)])
        d.id ["pull", if d.merging_strategy = "" then "--rebase" else d.merging_strategy,
          "origin"] = .error e →
      read env h d =
        ⟨[Event.gitCommand d.id ["config", "--get", "remote.origin.url"] (.ok o1),
          Event.gitCommand d.id ["rev-parse", "--abbrev-ref", "HEAD"] (.ok o2),
          Event.gitCommand d.id
            ["pull", if d.merging_strategy = "" then "--rebase" else d.merging_strategy,
              "origin"] (.error e)],
          d, some (.git e)⟩)
    ∧ (∀ o1 o2 o3 e,
      env.gitCommand h d.id ["config", "--get", "remote.origin.url"] = .ok o1 →
      env.gitCommand
        (h ++ [Event.gitCommand d.id ["config", "--get", "remote.origin.url"] (.ok o1)])
        d.id ["rev-parse", "--abbrev-ref", "HEAD"] = .ok o2 →
      env.gitCommand
        (h ++ [Event.gitCommand d.id ["config", "--get", "remote.origin.url"] (.ok o1),
          Event.gitCommand d.id ["rev-parse", "--abbrev-ref", "HEAD"] (.ok o2)])
        d.id ["pull", if d.merging_strategy = "" then "--rebase" else d.merging_strategy,
          "origin"] = .ok o3 →
      env.gitCommand
        (h ++ [Event.gitCommand d.id ["config", "--get", "remote.origin.url"] (.ok o1),
          Event.gitCommand d.id ["rev-parse", "--abbrev-ref", "HEAD"] (.ok o2),
          Event.gitCommand d.id
            ["pull", if d.merging_strategy = "" then "--rebase" else d.merging_strategy,
              "origin"] (.ok o3)])
        d.id ["rev-parse", "HEAD"] = .error e →
      read env h d =
        ⟨[Event.gitCommand d.id ["config", "--get", "remote.origin.url"] (.ok o1),
          Event.gitCommand d.id ["rev-parse", "--abbrev-ref", "HEAD"] (.ok o2),
          Event.gitCommand d.id
            ["pull", if d.merging_strategy = "" then "--rebase" else d.merging_strategy,
              "origin"] (.ok o3),
          Event.gitCommand d.id ["rev-parse", "HEAD"] (.error e)],
          d, some (.git e)⟩)
    ∧ (∀ o1 o2 o3 o4,
      env.gitCommand h d.id ["config", "--get", "remote.origin.url"] = .ok o1 →
      env.gitCommand
        (h ++ [Event.gitCommand d.id ["config", "--get", "remote.origin.url"] (.ok o1)])
        d.id ["rev-parse", "--abbrev-ref", "HEAD"] = .ok o2 →
      env.gitCommand
        (h ++ [Event.gitCommand d.id ["config", "--get", "remote.origin.url"] (.ok o1),
          Event.gitCommand d.id ["rev-parse", "--abbrev-ref", "HEAD"] (.ok o2)])
        d.id ["pull", if d.merging_strategy = "" then "--rebase" else d.merging_strategy,
          "origin"] = .ok o3 →
      env.gitCommand
        (h ++ [Event.gitCommand d.id ["config", "--get", "remote.origin.url"] (.ok o1),
          Event.gitCommand d.id ["rev-parse", "--abbrev-ref", "HEAD"] (.ok o2),
          Event.gitCommand d.id
            ["pull", if d.merging_strategy = "" then "--rebase" else d.merging_strategy,
              "origin"] (.ok o3)])
        d.id ["rev-parse", "HEAD"] = .ok o4 →
      read env h d =
        ⟨[Event.gitCommand d.id ["config", "--get", "remote.origin.url"] (.ok o1),
          Event.gitCommand d.id ["rev-parse", "--abbrev-ref", "HEAD"] (.ok o2),
          Event.gitCommand d.id
            ["pull", if d.merging_strategy = "" then "--rebase" else d.merging_strategy,
              "origin"] (.ok o3),
          Event.gitCommand d.id ["rev-parse", "HEAD"] (.ok o4),
          Event.set "path" d.id, Event.set "repo" (TrimRight o1 "\n"),
          Event.set "branch" (TrimRight o2 "\n"), Event.set "head" (TrimRight o4 "\n")],
          { d with
            path := d.id
            repo := TrimRight o1 "\n"
            branch := TrimRight o2 "\n"
            head := TrimRight o4 "\n" },
          none⟩) := by
  refine ⟨?_, ?_, ?_, ?_, ?_, ?_⟩
  · generalize ho : read env h d = o
    unfold read at ho
    simp only [] at ho
    repeat' split at ho
    all_goals subst ho
    all_goals simp [*, gitCalls, Event.gitCall, reconcileCommands, DEFAULT_MERGING_STRATEGY, ResourceData.Set]
    all_goals first
      | exact ⟨[], _, _, rfl, rfl, by simp⟩
      | exact ⟨[_], _, _, rfl, rfl, by simp⟩
      | exact ⟨[_, _], _, _, rfl, rfl, by simp⟩
      | exact ⟨[_, _, _], _, _, rfl, rfl, by simp⟩
      | exact ⟨_, _, _, _, ⟨rfl, rfl, rfl, rfl, rfl, rfl, rfl⟩, rfl, rfl, rfl⟩
  · intro e h1
    unfold read
    simp [h1]
  · intro o1 e h1 h2
    unfold read
    simp [h1, h2]
  · intro o1 o2 e h1 h2 h3
    unfold read
    simp [h1, h2, h3, DEFAULT_MERGING_STRATEGY]
  · intro o1 o2 o3 e h1 h2 h3 h4
    unfold read
    simp [h1, h2, h3, h4, DEFAULT_MERGING_STRATEGY]
  · intro o1 o2 o3 o4 h1 h2 h3 h4
    unfold read
    simp [h1, h2, h3, h4, DEFAULT_MERGING_STRATEGY, ResourceData.Set]

/-- Claim C4 on the example checkout: with a git that answers, `read` sets the
four attributes from the answers; with a git that fails, it stops at the first
command. -/
theorem read_reconciles_witness :
    read exampleEnv [] exampleData =
        ⟨[Event.gitCommand exampleData.id ["config", "--get", "remote.origin.url"]
            (.ok "git@example.com:ops/state.git\n"),
          Event.gitCommand exampleData.id ["rev-parse", "--abbrev-ref", "HEAD"] (.ok "master\n"),
          Event.gitCommand exampleData.id
            ["pull", if exampleData.merging_strategy = "" then "--rebase"
              else exampleData.merging_strategy, "origin"] (.ok ""),
          Event.gitCommand exampleData.id ["rev-parse", "HEAD"] (.ok "4f2a9c1\n"),
          Event.set "path" exampleData.id,
          Event.set "repo" (TrimRight "git@example.com:ops/state.git\n" "\n"),
          Event.set "branch" (TrimRight "master\n" "\n"),
          Event.set "head" (TrimRight "4f2a9c1\n" "\n")],
          { exampleData with
            path := exampleData.id
            repo := TrimRight "git@example.com:ops/state.git\n" "\n"
            branch := TrimRight "master\n" "\n"
            head := TrimRight "4f2a9c1\n" "\n" },
          none⟩
      ∧ read failingGitEnv [] exampleData =
        ⟨[Event.gitCommand exampleData.id ["config", "--get", "remote.origin.url"]
            (.error "fatal: unable to access remote")],
          exampleData, some (.git "fatal: unable to access remote")⟩ :=
  ⟨(read_reconciles exampleEnv [] exampleData).2.2.2.2.2
      "git@example.com:ops/state.git\n" "master\n" "" "4f2a9c1\n"
      (by decide) (by decide) (by decide) (by decide),
    (read_reconciles failingGitEnv [] exampleData).2.1 "fatal: unable to access remote"
      (by decide)⟩

/-- Claim C5, as amended: an error of `CheckoutCreate` comes from the clone or
from a git command of the reconciliation.  After an error of the clone the
resource data, its id included, is as before the call; after an error of a git
command the id is the configured path and every attribute is as before. -/
theorem CheckoutCreate_error_identity (env : Env) (h : List Event) (d : ResourceData)
    (c : Config) :
    (∀ m, (CheckoutCreate env h d c).err = some (.clone m) →
      (CheckoutCreate env h d c).data = d)
    ∧ (∀ m, (CheckoutCreate env h d c).err = some (.git m) →
      (CheckoutCreate env h d c).data = d.SetId c.Path)
    ∧ (∀ e, (CheckoutCreate env h d c).err = some e →
      (∃ m, e = Error.clone m) ∨ (∃ m, e = Error.git m)) := by
  unfold CheckoutCreate
  simp only []
  split
  · simp
  · refine ⟨?_, ?_, ?_⟩
    · intro m hm
      obtain ⟨m2, hm2, -⟩ := read_err_git _ _ _ _ hm
      simp at hm2
    · intro m hm
      exact (read_err_git _ _ _ _ hm).choose_spec.2
    · intro e he
      obtain ⟨m2, hm2, -⟩ := read_err_git _ _ _ _ he
      exact Or.inr ⟨m2, hm2⟩

/-- Claim C5, as amended, on a fresh resource whose reconciliation fails. -/
theorem CheckoutCreate_error_identity_witness :
    (CheckoutCreate failingGitEnv [] freshData exampleConfig).err =
        some (.git "fatal: unable to access remote")
      ∧ (CheckoutCreate failingGitEnv [] freshData exampleConfig).data =
        freshData.SetId exampleConfig.Path :=
  ⟨by decide,
    (CheckoutCreate_error_identity failingGitEnv [] freshData exampleConfig).2.1
      "fatal: unable to access remote" (by decide)⟩

/-- Claim C5 as stated fails: on a fresh resource (empty id) whose clone
succeeds and whose first git command fails, `CheckoutCreate` returns an error
and leaves the id set to the configured path. -/
theorem CheckoutCreate_failed_reconcile_keeps_id :
    (CheckoutCreate failingGitEnv [] freshData exampleConfig).err =
        some (.git "fatal: unable to access remote")
      ∧ freshData.id = ""
      ∧ (CheckoutCreate failingGitEnv [] freshData exampleConfig).data.id = "/srv/checkout"
      ∧ (CheckoutCreate failingGitEnv [] freshData exampleConfig).data.id ≠ "" := by
  decide

/-- Claim C6: on every path through `CheckoutCreate`, `CheckoutRead` and
`CheckoutDelete` the lock of the configured path is released as often as it is
acquired, at most once; when it is acquired, the acquisition is the first event
and the release the last, and every event in between is a call for that same
path string (or an in-memory `SetId`/`Set`) and no lock event. -/
theorem lifecycle_lock_scoped (env : Env) (h : List Event) (d : ResourceData) (c : Config) :
    (LockScoped c.Path (CheckoutCreate env h d c).events
      ∧ (CheckoutCreate env h d c).events.countP Event.isLock = 1
      ∧ (CheckoutCreate env h d c).events.countP Event.isUnlock = 1)
    ∧ (LockScoped c.Path (CheckoutRead env h d c).events
      ∧ (CheckoutRead env h d c).events.countP Event.isLock =
          (CheckoutRead env h d c).events.countP Event.isUnlock
      ∧ (CheckoutRead env h d c).events.countP Event.isLock ≤ 1)
    ∧ (LockScoped c.Path (CheckoutDelete env h d c).events
      ∧ (CheckoutDelete env h d c).events.countP Event.isLock =
          (CheckoutDelete env h d c).events.countP Event.isUnlock
      ∧ (CheckoutDelete env h d c).events.countP Event.isLock ≤ 1) := by
  refine ⟨?_, ?_, ?_⟩
  · unfold CheckoutCreate
    simp only []
    split
    · simp [LockScoped, Event.isLock, Event.isUnlock, Event.target]
    · have hr := read_events_target env
        (h ++ ([Event.lockCheckout c.Path] ++ [Event.cloneIfNotExist c none]
          ++ [Event.setId c.Path])) (d.SetId c.Path)
      have hb := lockScoped_bracket c.Path
        (Event.cloneIfNotExist c none :: Event.setId c.Path ::
          (read env (h ++ ([Event.lockCheckout c.Path] ++ [Event.cloneIfNotExist c none]
            ++ [Event.setId c.Path])) (d.SetId c.Path)).events)
        (by
          intro e he
          rcases List.mem_cons.mp he with rfl | he
          · simp [Event.isLock, Event.isUnlock, Event.target]
          rcases List.mem_cons.mp he with rfl | he
          · simp [Event.isLock, Event.isUnlock, Event.target]
          · exact hr e he)
      simpa using hb
  · unfold CheckoutRead
    simp only []
    split_ifs with hid
    · simp [LockScoped]
    · split
      · simp [LockScoped, Event.isLock, Event.isUnlock, Event.target]
      · have hr := read_events_target env
          (h ++ ([Event.lockCheckout c.Path] ++ [Event.cloneIfNotExist c none])) d
        have hb := lockScoped_bracket c.Path
          (Event.cloneIfNotExist c none ::
            (read env (h ++ ([Event.lockCheckout c.Path] ++ [Event.cloneIfNotExist c none]))
              d).events)
          (by
            intro e he
            rcases List.mem_cons.mp he with rfl | he
            · simp [Event.isLock, Event.isUnlock, Event.target]
            · have := hr e he
              simpa [not_not.mp hid] using this)
        obtain ⟨hb1, hb2, hb3⟩ := hb
        refine ⟨by simpa using hb1, ?_, ?_⟩
        · have e1 := hb2
          have e2 := hb3
          simp only [List.cons_append, List.nil_append, List.append_assoc] at e1 e2 ⊢
          rw [e1, e2]
        · have e1 := hb2
          simp only [List.cons_append, List.nil_append, List.append_assoc] at e1 ⊢
          rw [e1]
  · generalize ho : CheckoutDelete env h d c = o
    unfold CheckoutDelete at ho
    simp only [] at ho
    repeat' split at ho
    all_goals subst ho
    all_goals simp [LockScoped, Event.isLock, Event.isUnlock, Event.target]

/-- Claim C7: when the collaborators give the second `CheckoutRead` the same
answers they gave the first (the results of its clone and of its git commands
are those of the first call, whatever the first call itself changed), the
second call, run on the data the first one left, returns the same error or the
same success, the same resource data (head, repo, branch, path) and makes the
same calls. -/
theorem CheckoutRead_idempotent (env : Env) (h : List Event) (d : ResourceData) (c : Config)
    (hclone : cloneResults (CheckoutRead env (h ++ (CheckoutRead env h d c).events)
        (CheckoutRead env h d c).data c).events =
      cloneResults (CheckoutRead env h d c).events)
    (hgit : gitResults (CheckoutRead env (h ++ (CheckoutRead env h d c).events)
        (CheckoutRead env h d c).data c).events =
      gitResults (CheckoutRead env h d c).events) :
    CheckoutRead env (h ++ (CheckoutRead env h d c).events) (CheckoutRead env h d c).data c =
      CheckoutRead env h d c := by
  by_cases hid : c.Path = d.id
  · cases hc : env.cloneIfNotExist (h ++ [Event.lockCheckout c.Path]) c with
    | some e =>
      rw [CheckoutRead_clone_err env h d c e hid hc] at hclone ⊢
      simp only [] at hclone ⊢
      cases hc2 : env.cloneIfNotExist
          (h ++ [Event.lockCheckout c.Path, Event.cloneIfNotExist c (some e),
            Event.unlockCheckout c.Path] ++ [Event.lockCheckout c.Path]) c with
      | some e2 =>
        rw [CheckoutRead_clone_err env _ d c e2 hid hc2] at hclone ⊢
        simp [cloneResults, Event.cloneResult] at hclone
        rw [hclone]
      | none =>
        rw [CheckoutRead_clone_ok env _ d c hid hc2] at hclone
        simp [cloneResults, Event.cloneResult, List.filterMap_append] at hclone
    | none =>
      have hid2 : c.Path = (CheckoutRead env h d c).data.id := by
        rw [CheckoutRead_clone_ok env h d c hid hc]
        exact hid.trans (read_data_id _ _ _).1.symm
      cases hc2 : env.cloneIfNotExist
          (h ++ (CheckoutRead env h d c).events ++ [Event.lockCheckout c.Path]) c with
      | some e2 =>
        rw [CheckoutRead_clone_err env _ _ c e2 hid2 hc2] at hclone
        rw [CheckoutRead_clone_ok env h d c hid hc] at hclone
        simp [cloneResults, Event.cloneResult, List.filterMap_append] at hclone
      | none =>
        rw [CheckoutRead_clone_ok env _ _ c hid2 hc2] at hgit ⊢
        have e1 := CheckoutRead_clone_ok env h d c hid hc
        generalize CheckoutRead env h d c = first at *
        subst e1
        simp only [] at hgit ⊢
        have hres : gitResults (read env
              (h ++ ([Event.lockCheckout c.Path, Event.cloneIfNotExist c none] ++
                (read env (h ++ [Event.lockCheckout c.Path, Event.cloneIfNotExist c none])
                  d).events ++ [Event.unlockCheckout c.Path]) ++
                [Event.lockCheckout c.Path, Event.cloneIfNotExist c none])
              (read env (h ++ [Event.lockCheckout c.Path, Event.cloneIfNotExist c none])
                d).data).events =
            gitResults (read env (h ++ [Event.lockCheckout c.Path,
              Event.cloneIfNotExist c none]) d).events := by
          simpa [gitResults, Event.gitResult, List.filterMap_append] using hgit
        rw [read_repeat env _ _ d hres]
  · rw [CheckoutRead_mismatch env h d c hid]
    exact CheckoutRead_mismatch env _ d c hid

/-- Claim C7 on a checkout whose remote is one commit ahead: the first read
pulls and records the new head, the second read finds the same head. -/
theorem CheckoutRead_idempotent_witness :
    (CheckoutRead movingHeadEnv [] exampleData exampleConfig).err = none
      ∧ (CheckoutRead movingHeadEnv [] exampleData exampleConfig).data.head = "bbbbbbb"
      ∧ CheckoutRead movingHeadEnv
          ([] ++ (CheckoutRead movingHeadEnv [] exampleData exampleConfig).events)
          (CheckoutRead movingHeadEnv [] exampleData exampleConfig).data exampleConfig =
        CheckoutRead movingHeadEnv [] exampleData exampleConfig :=
  ⟨by decide, by decide,
    CheckoutRead_idempotent movingHeadEnv [] exampleData exampleConfig (by decide)
      (by decide)⟩

/-- Claim C8, on the retrying push of the specification: when `CheckoutDelete`
has committed the tombstone, every push is rejected and every pull between two
attempts succeeds, the push call makes exactly `retry_count` attempts (none
when `retry_count` is not positive), with one sleep of `retry_interval` seconds
and one pull between consecutive attempts, and fails; `CheckoutDelete` returns
that error and removes nothing. -/
theorem CheckoutDelete_push_retries_exhausted (env : Env)
    (g : List Event → List PushStep → String → List String → Except String String)
    (h : List Event) (d : ResourceData) (c : Config)
    (hpush : env.push = fun hist dir count rc ri ms => push (g hist) dir count rc ri ms)
    (hcommit : Event.commit c.Path "Removed by Terraform" "" none ∈
      (CheckoutDelete env h d c).events)
    (hrej : ∀ hist steps, ∃ e, g hist steps c.Path ["push", "origin"] = .error e)
    (hpull : ∀ hist steps, ∃ out,
      g hist steps c.Path ["pull", d.merging_strategy, "origin"] = .ok out) :
    ∃ steps,
      (CheckoutDelete env h d c).events.get? 7 =
        some (Event.push c.Path 0 d.retry_count d.retry_interval d.merging_strategy steps
          (some "PushRetriesExhaustedError"))
      ∧ steps.countP PushStep.isPushAttempt = d.retry_count.toNat
      ∧ steps.map PushStep.call =
        List.intercalate
          [PushCall.sleep d.retry_interval,
            PushCall.git c.Path ["pull", d.merging_strategy, "origin"]]
          (List.replicate d.retry_count.toNat [PushCall.git c.Path ["push", "origin"]])
      ∧ (CheckoutDelete env h d c).err = some (.push "PushRetriesExhaustedError")
      ∧ ∀ p r, Event.removeAll p r ∉ (CheckoutDelete env h d c).events := by
  generalize ho : CheckoutDelete env h d c = o at hcommit ⊢
  unfold CheckoutDelete at ho
  simp only [] at ho
  repeat' split at ho
  all_goals subst ho
  all_goals simp at hcommit
  all_goals simp only [hpush] at *
  all_goals
    have hp := ‹push _ c.Path 0 d.retry_count d.retry_interval d.merging_strategy = _›
    obtain ⟨k1, k2, k3⟩ := push_exhausted _ c.Path d.retry_count d.retry_interval
      d.merging_strategy (hrej _) (hpull _) _ _ hp
  all_goals simp at k1
  subst k1
  exact ⟨_, by simp, k2, k3, rfl, by simp⟩

/-- Claim C8 on the example checkout with `retry_count = 3` and a remote that
rejects every push. -/
theorem CheckoutDelete_push_retries_exhausted_witness :
    Event.commit exampleConfig.Path "Removed by Terraform" "" none ∈
        (CheckoutDelete rejectingEnv [] exampleData exampleConfig).events
      ∧ ∃ steps,
        (CheckoutDelete rejectingEnv [] exampleData exampleConfig).events.get? 7 =
          some (Event.push exampleConfig.Path 0 exampleData.retry_count
            exampleData.retry_interval exampleData.merging_strategy steps
            (some "PushRetriesExhaustedError"))
        ∧ steps.countP PushStep.isPushAttempt = exampleData.retry_count.toNat
        ∧ steps.map PushStep.call =
          List.intercalate
            [PushCall.sleep exampleData.retry_interval,
              PushCall.git exampleConfig.Path ["pull", exampleData.merging_strategy, "origin"]]
            (List.replicate exampleData.retry_count.toNat
              [PushCall.git exampleConfig.Path ["push", "origin"]])
        ∧ (CheckoutDelete rejectingEnv [] exampleData exampleConfig).err =
          some (.push "PushRetriesExhaustedError")
        ∧ ∀ p r, Event.removeAll p r ∉
          (CheckoutDelete rejectingEnv [] exampleData exampleConfig).events :=
  ⟨by decide,
    CheckoutDelete_push_retries_exhausted rejectingEnv rejectingGit [] exampleData
      exampleConfig rfl (by decide)
      (fun _ _ => ⟨"rejected: fetch first", by simp [rejectingGit]⟩)
      (fun _ _ => ⟨"", by simp [rejectingGit]⟩)⟩

/-- Claim C9 fails on the code: for a resource whose `merging_strategy` is
empty and whose id is the configured path, `CheckoutDelete` pulls with the
empty string as strategy, while `read` pulls with `--rebase`; the two command
sequences differ in the third command. -/
theorem CheckoutDelete_pull_differs_from_read :
    emptyStrategyData.id = exampleConfig.Path
      ∧ gitCalls (CheckoutDelete exampleEnv [] emptyStrategyData exampleConfig).events =
        [("/srv/checkout", ["config", "--get", "remote.origin.url"]),
          ("/srv/checkout", ["rev-parse", "--abbrev-ref", "HEAD"]),
          ("/srv/checkout", ["pull", "", "origin"]),
          ("/srv/checkout", ["rev-parse", "HEAD"])]
      ∧ gitCalls (read exampleEnv [] emptyStrategyData).events =
        [("/srv/checkout", ["config", "--get", "remote.origin.url"]),
          ("/srv/checkout", ["rev-parse", "--abbrev-ref", "HEAD"]),
          ("/srv/checkout", ["pull", "--rebase", "origin"]),
          ("/srv/checkout", ["rev-parse", "HEAD"])]
      ∧ gitCalls (CheckoutDelete exampleEnv [] emptyStrategyData exampleConfig).events ≠
        gitCalls (read exampleEnv [] emptyStrategyData).events := by
  decide

/-- Claim C10: let a `CheckoutRead` or `CheckoutCreate` succeed with git outputs
`o1`, `o2`, `o3`, `o4`, and let `CheckoutDelete` run on the data it recorded,
its four git commands succeeding with outputs `q1`, `q2`, `q3`, `q4`.  If the
three observations agree with those of the read after removal of trailing
newlines, the sanity check passes and the next event is the tombstone commit;
and if `CheckoutDelete` returns an error of the sanity check, at least one of
the three observations differs from the read's. -/
theorem read_then_delete (env : Env) (op : Env → List Event → ResourceData → Config → Outcome)
    (hop : op = CheckoutRead ∨ op = CheckoutCreate)
    (h k : List Event) (d : ResourceData) (c : Config) (o1 o2 o3 o4 q1 q2 q3 q4 : String)
    (hs : (op env h d c).err = none)
    (hg : gitResults (op env h d c).events = [.ok o1, .ok o2, .ok o3, .ok o4])
    (hd : gitResults (CheckoutDelete env k (op env h d c).data c).events =
      [.ok q1, .ok q2, .ok q3, .ok q4]) :
    ((TrimRight o1 "\n" = TrimRight q1 "\n" ∧ TrimRight o2 "\n" = TrimRight q2 "\n"
        ∧ TrimRight o4 "\n" = TrimRight q4 "\n") →
      (∃ r, (CheckoutDelete env k (op env h d c).data c).events.get? 6 =
          some (Event.commit c.Path "Removed by Terraform" "" r))
      ∧ (∀ e a, (CheckoutDelete env k (op env h d c).data c).err ≠ some (.expectedRepo e a))
      ∧ (∀ e a, (CheckoutDelete env k (op env h d c).data c).err ≠ some (.expectedBranch e a))
      ∧ (∀ e a, (CheckoutDelete env k (op env h d c).data c).err ≠ some (.expectedHead e a)))
    ∧ (((∃ e a, (CheckoutDelete env k (op env h d c).data c).err = some (.expectedRepo e a))
        ∨ (∃ e a, (CheckoutDelete env k (op env h d c).data c).err = some (.expectedBranch e a))
        ∨ (∃ e a, (CheckoutDelete env k (op env h d c).data c).err = some (.expectedHead e a))) →
      (TrimRight o1 "\n" ≠ TrimRight q1 "\n" ∨ TrimRight o2 "\n" ≠ TrimRight q2 "\n"
        ∨ TrimRight o4 "\n" ≠ TrimRight q4 "\n")) := by
  have key : (op env h d c).data.repo = TrimRight o1 "\n"
      ∧ (op env h d c).data.branch = TrimRight o2 "\n"
      ∧ (op env h d c).data.head = TrimRight o4 "\n" := by
    rcases hop with rfl | rfl
    · by_cases hid : c.Path = d.id
      · cases hc : env.cloneIfNotExist (h ++ [Event.lockCheckout c.Path]) c with
        | some e =>
          rw [CheckoutRead_clone_err env h d c e hid hc] at hs
          simp at hs
        | none =>
          rw [CheckoutRead_clone_ok env h d c hid hc] at hs hg ⊢
          simp [gitResults, Event.gitResult] at hg
          obtain ⟨-, h1, h2, h3, -⟩ := read_success_data env _ d o1 o2 o3 o4 hs
            (by simpa [gitResults] using hg)
          exact ⟨h1, h2, h3⟩
      · rw [CheckoutRead_mismatch env h d c hid] at hs
        simp at hs
    · unfold CheckoutCreate at hs hg ⊢
      simp only [] at hs hg ⊢
      split at hs
      · simp at hs
      · rename_i hc
        simp only [hc] at hg ⊢
        simp [gitResults, Event.gitResult] at hg
        obtain ⟨-, h1, h2, h3, -⟩ := read_success_data env _ _ o1 o2 o3 o4 hs
          (by simpa [gitResults] using hg)
        exact ⟨h1, h2, h3⟩
  obtain ⟨kr, kb, kh⟩ := key
  generalize (op env h d c).data = D at hd kr kb kh ⊢
  generalize ho : CheckoutDelete env k D c = o at hd ⊢
  unfold CheckoutDelete at ho
  simp only [] at ho
  repeat' split at ho
  all_goals subst ho
  all_goals simp [gitResults, Event.gitResult] at hd
  all_goals obtain ⟨rfl, rfl, rfl, rfl⟩ := hd
  all_goals simp_all

/-- Claim C10 on the example checkout: a read followed by a delete that
observes the same outputs reaches the tombstone commit. -/
theorem read_then_delete_witness :
    (CheckoutRead exampleEnv [] exampleData exampleConfig).err = none
      ∧ ∃ r, (CheckoutDelete exampleEnv []
          (CheckoutRead exampleEnv [] exampleData exampleConfig).data exampleConfig).events.get? 6 =
        some (Event.commit exampleConfig.Path "Removed by Terraform" "" r) :=
  ⟨by decide,
    ((read_then_delete exampleEnv CheckoutRead (Or.inl rfl) [] [] exampleData exampleConfig
      "git@example.com:ops/state.git\n" "master\n" "" "4f2a9c1\n"
      "git@example.com:ops/state.git\n" "master\n" "" "4f2a9c1\n"
      (by decide) (by decide) (by decide)).1 ⟨rfl, rfl, rfl⟩).1⟩

end Gitops
